import Mathlib

/-!
Verification development for the AI-assisted document authoring platform.

The definitions below are a shallow embedding of the client code
(`frontend/src/pages/NewProject.js`, `frontend/src/pages/ProjectEditor.js`,
`frontend/src/pages/Dashboard.js`, `frontend/src/services/*.js`).  The
FastAPI backend is not part of the sources; where a property depends on
backend behaviour, the backend operation is modelled from the spec and its
doc comment says so explicitly.
-/

namespace DocAuth

/-! ## New Project wizard structure (NewProject.js)

The wizard keeps a local list `structure` of section/slide stubs, each with
an `id`, a `title` and an `order` field. -/

structure SectionItem where
  id : Nat
  title : String
  order : Nat
  deriving DecidableEq, Repr

/-- Embeds `addSection` (NewProject.js 67–74): appends a new item whose
`order` is `structure.length + 1`.  The JS id is `Date.now().toString()`;
we take the fresh id as a parameter. -/
def addSection (s : List SectionItem) (newId : Nat) : List SectionItem :=
  s ++ [{ id := newId, title := "", order := s.length + 1 }]

/-- Embeds `updateSection` (NewProject.js 76–80): retitles the items with
the given id, leaving `order` untouched. -/
def updateSection (s : List SectionItem) (i : Nat) (title : String) :
    List SectionItem :=
  s.map (fun item => if item.id = i then { item with title := title } else item)

/-- Embeds `removeSection` (NewProject.js 82–84): filters the item out.
Note that the JS does not renumber the remaining items' `order` fields. -/
def removeSection (s : List SectionItem) (i : Nat) : List SectionItem :=
  s.filter (fun item => item.id ≠ i)

inductive MoveDir
  | up
  | down
  deriving DecidableEq, Repr

/-- The `forEach` renumbering pass inside `moveSection` (NewProject.js
94–96): sets every item's `order` to its position plus one.  The counter
`n` is the number of items already passed. -/
def reindexOrders : Nat → List SectionItem → List SectionItem
  | _, [] => []
  | n, x :: xs => { x with order := n + 1 } :: reindexOrders (n + 1) xs

/-- Array-element swap used by `moveSection` (NewProject.js 91).  The UI
only ever calls it with both indices in bounds; out of bounds it leaves
the list unchanged. -/
def swapItems (s : List SectionItem) (i j : Nat) : List SectionItem :=
  match s.get? i, s.get? j with
  | some a, some b => (s.set i b).set j a
  | _, _ => s

/-- Embeds `moveSection` (NewProject.js 86–100): computes the target index
(as a JS number, so `0 - 1 = -1` fails the bound check), and when it is in
bounds swaps the two items and renumbers every `order` to `idx + 1`. -/
def moveSection (s : List SectionItem) (index : Nat) (dir : MoveDir) :
    List SectionItem :=
  let targetIndex : Int :=
    match dir with
    | .up => (index : Int) - 1
    | .down => (index : Int) + 1
  if 0 ≤ targetIndex ∧ targetIndex < (s.length : Int) then
    reindexOrders 0 (swapItems s index targetIndex.toNat)
  else
    s

/-- The spec invariant: the items' `order` fields read `1..N` in list
order, `N` the number of items. -/
def ordersContiguous (s : List SectionItem) : Prop :=
  s.map (fun item => item.order) = List.range' 1 s.length

instance (s : List SectionItem) : Decidable (ordersContiguous s) := by
  unfold ordersContiguous; infer_instance

/-- One wizard structure edit, as named by the spec invariant: insertion
(`addSection`), reordering (`moveSection`) or removal (`removeSection`). -/
inductive WizardOp
  | add (newId : Nat)
  | move (index : Nat) (dir : MoveDir)
  | remove (i : Nat)
  deriving DecidableEq, Repr

def applyWizardOp (s : List SectionItem) : WizardOp → List SectionItem
  | .add newId => addSection s newId
  | .move index dir => moveSection s index dir
  | .remove i => removeSection s i

/-- Runs a sequence of wizard edits on the (initially empty) structure. -/
def applyWizardOps (ops : List WizardOp) : List SectionItem :=
  ops.foldl applyWizardOp []

/-- Whether a wizard edit is a removal. -/
def WizardOp.isRemove : WizardOp → Bool
  | .remove _ => true
  | _ => false

/-! ## Project editor and refinement workflow (ProjectEditor.js)

The editor holds the client copy of the project's content items together
with per-item keyed objects `refinementResults`, `refinementPrompts` and
`comments`.  The backend refinement workflow is not in the sources, so its
operations are modelled from the spec (§4.4); the combined state carries
both sides. -/

/-- A content item's content: a text block for structured documents, an
ordered bullet list for slide decks. -/
inductive Content
  | text (s : String)
  | bullets (bs : List String)
  deriving DecidableEq, Repr

structure ContentItem where
  id : Nat
  title : String
  content : Option Content
  deriving DecidableEq, Repr

/-- The refinement API's reply object; the client reads its
`refined_content` field (ProjectEditor.js 132). -/
structure RefinementResult where
  refined_content : Content
  deriving DecidableEq, Repr

structure Feedback where
  itemId : Nat
  liked : Option Bool
  comment : String
  deriving DecidableEq, Repr

/-- A transient user-visible notification (react-hot-toast). -/
inductive Toast
  | success (msg : String)
  | error (msg : String)
  | loading (msg : String)
  | dismiss
  deriving DecidableEq, Repr

/-- Executable model of JS `String.prototype.trim` (and of Lean's
`String.trim`, which is not kernel-reducible): drops whitespace from both
ends of the string. -/
def jsTrim (s : String) : String :=
  String.mk
    (((s.data.dropWhile Char.isWhitespace).reverse.dropWhile
      Char.isWhitespace).reverse)

/-- Functional update of a keyed client-state object, as in
`{ ...m, [k]: v }`; absent keys read as `none`. -/
def setKey {α : Type} (m : Nat → Option α) (k : Nat) (v : Option α) :
    Nat → Option α :=
  fun k2 => if k2 = k then v else m k2

/-- JS `findIndex` on the item id followed by an in-place assignment of the
found element's content: updates the first matching item, leaves the list
unchanged when no item matches. -/
def setContentFirst : List ContentItem → Nat → Content → List ContentItem
  | [], _, _ => []
  | it :: rest, itemId, c =>
      if it.id = itemId then { it with content := some c } :: rest
      else it :: setContentFirst rest itemId c

/-- Content of the first item with the given id, `none` when the item is
absent or has no generated content. -/
def itemContent (items : List ContentItem) (itemId : Nat) : Option Content :=
  (items.find? (fun it => it.id = itemId)).bind (fun it => it.content)

/-- Error taxonomy of the spec (§7) restricted to the refinement flow. -/
inductive RefError
  | ValidationError
  | NotFound
  | GenerationFailed
  | NoPendingRefinement
  deriving DecidableEq, Repr

/-- Combined client/backend state for the refinement workflow.
`serverItems`, `serverPending` and `feedbacks` are the backend side
(modelled from the spec, §3 and §4.4); `items`, `refinementResults`,
`refinementPrompts` and `comments` are the component state of
ProjectEditor.js (lines 26–31). -/
structure EditorState where
  serverItems : List ContentItem
  serverPending : Nat → Option RefinementResult
  feedbacks : List Feedback
  items : List ContentItem
  refinementResults : Nat → Option RefinementResult
  refinementPrompts : Nat → Option String
  comments : Nat → Option String

/-- Modelled from the spec: the backend `refine` operation (§4.4); the
FastAPI backend is absent from the sources.  Requires a non-empty
instruction and an item that currently has content; asks the AI adapter
(whose reply is the `aiReply` argument, `none` meaning the call failed
after the one fallback attempt); on success stores the reply as the item's
pending Refinement Result, overwriting any previous pending result. -/
def backendRefine (serverItems : List ContentItem)
    (serverPending : Nat → Option RefinementResult) (itemId : Nat)
    (instruction : String) (aiReply : Option Content) :
    Except RefError ((Nat → Option RefinementResult) × RefinementResult) :=
  if jsTrim instruction = "" then .error .ValidationError
  else
    match itemContent serverItems itemId with
    | none => .error .ValidationError
    | some _ =>
        match aiReply with
        | none => .error .GenerationFailed
        | some c =>
            let r : RefinementResult := { refined_content := c }
            .ok (setKey serverPending itemId (some r), r)

/-- Modelled from the spec: the backend `accept` operation (§4.4); the
FastAPI backend is absent from the sources.  Requires a pending Refinement
Result to exist, else fails with `NoPendingRefinement`; copies the proposed
content into the Content Item and clears the pending result. -/
def backendAccept (serverItems : List ContentItem)
    (serverPending : Nat → Option RefinementResult) (itemId : Nat) :
    Except RefError (List ContentItem × (Nat → Option RefinementResult)) :=
  match serverPending itemId with
  | none => .error .NoPendingRefinement
  | some r =>
      .ok (setContentFirst serverItems itemId r.refined_content,
        setKey serverPending itemId none)

/-- Modelled from the spec: the backend `feedback` operation (§4.4); the
FastAPI backend is absent from the sources.  Appends a Feedback record. -/
def backendFeedback (feedbacks : List Feedback) (itemId : Nat)
    (liked : Option Bool) (comment : String) : List Feedback :=
  feedbacks ++ [{ itemId := itemId, liked := liked, comment := comment }]

/-- Embeds the refinement-prompt input onChange (ProjectEditor.js
278–282). -/
def setPrompt (st : EditorState) (itemId : Nat) (v : String) : EditorState :=
  { st with refinementPrompts := setKey st.refinementPrompts itemId (some v) }

/-- Embeds `refineContent` (ProjectEditor.js 104–120).  An absent or
blank prompt (`!prompt?.trim()`) only raises an error toast; otherwise the
refine API is called (its backend side modelled from the spec), a failure
is caught with an error toast and no state change, and a success stores
the result in `refinementResults[itemId]` and clears the prompt. -/
def refineContent (st : EditorState) (itemId : Nat) (aiReply : Option Content) :
    EditorState × List Toast :=
  let prompt := st.refinementPrompts itemId
  if jsTrim (prompt.getD "") = "" then
    (st, [Toast.error "Please enter a refinement prompt"])
  else
    match backendRefine st.serverItems st.serverPending itemId
        (prompt.getD "") aiReply with
    | .error _ => (st, [Toast.error "Error refining content"])
    | .ok (sp, r) =>
        ({ st with
            serverPending := sp,
            refinementResults := setKey st.refinementResults itemId (some r),
            refinementPrompts := setKey st.refinementPrompts itemId (some "") },
          [Toast.success "Content refined successfully!"])

/-- Embeds `acceptRefinement` (ProjectEditor.js 122–141).  The accept API
call (backend side modelled from the spec) failing is caught with an error
toast and no client change.  On API success the client copies its own
`refinementResults[itemId].refined_content` into the found item; when the
client has no pending result that member access throws and the catch shows
the error toast with no further client change; when the item id is not
found the content assignment is skipped but the pending result is still
cleared. -/
def acceptRefinement (st : EditorState) (itemId : Nat) :
    EditorState × List Toast :=
  match backendAccept st.serverItems st.serverPending itemId with
  | .error _ => (st, [Toast.error "Error accepting refinement"])
  | .ok (si, sp) =>
      let st1 := { st with serverItems := si, serverPending := sp }
      if st1.items.any (fun it => it.id = itemId) then
        match st1.refinementResults itemId with
        | none => (st1, [Toast.error "Error accepting refinement"])
        | some r =>
            ({ st1 with
                items := setContentFirst st1.items itemId r.refined_content,
                refinementResults := setKey st1.refinementResults itemId none },
              [Toast.success "Refinement accepted!"])
      else
        ({ st1 with refinementResults := setKey st1.refinementResults itemId none },
          [Toast.success "Refinement accepted!"])

/-- Embeds `rejectRefinement` (ProjectEditor.js 143–146): purely client
side, unconditionally clears `refinementResults[itemId]` and shows a
success toast.  No API call is made. -/
def rejectRefinement (st : EditorState) (itemId : Nat) :
    EditorState × List Toast :=
  ({ st with refinementResults := setKey st.refinementResults itemId none },
    [Toast.success "Refinement rejected"])

/-- Embeds `submitFeedback` (ProjectEditor.js 148–159): posts the liked
flag and the current comment (defaulting to the empty string); on success
clears the comment box and shows a success toast, on failure shows an
error toast; `apiOk` is whether the API call succeeded. -/
def submitFeedback (st : EditorState) (itemId : Nat) (liked : Option Bool)
    (apiOk : Bool) : EditorState × List Toast :=
  if apiOk then
    ({ st with
        feedbacks := backendFeedback st.feedbacks itemId liked
          ((st.comments itemId).getD ""),
        comments := setKey st.comments itemId (some "") },
      [Toast.success "Feedback submitted!"])
  else
    (st, [Toast.error "Error submitting feedback"])

/-- A concrete editor state with one content item, used to instantiate
theorems on concrete inputs. -/
def sampleState : EditorState where
  serverItems := [{ id := 1, title := "Intro", content := some (Content.text "orig") }]
  serverPending := fun _ => none
  feedbacks := []
  items := [{ id := 1, title := "Intro", content := some (Content.text "orig") }]
  refinementResults := fun _ => none
  refinementPrompts := fun _ => none
  comments := fun _ => none

/-! ## Export (spec-modelled backend adapter, and the client download path) -/

inductive ExportError
  | ExportFailed
  deriving DecidableEq, Repr

/-- Modelled from the spec: the backend Export Adapter (§4.5); the FastAPI
backend is absent from the sources.  Fails with `ExportFailed` when any
content item lacks generated content (export is all-or-nothing, never
partial); otherwise serializes one titled section/slide per content item,
in order. -/
def exportProject (items : List ContentItem) :
    Except ExportError (List (String × Content)) :=
  if items.any (fun it => it.content.isNone) then .error .ExportFailed
  else .ok (items.filterMap (fun it => it.content.map (fun c => (it.title, c))))

/-- A user-observable step of the client export handlers. -/
inductive ExportEffect
  | download (filename : String)
  | toast (t : Toast)
  deriving DecidableEq, Repr

/-- Embeds `exportDocument` (ProjectEditor.js 161–186): shows a loading
toast, and on API success triggers a download whose name is the project
title, a dot, and the document type, then dismisses the loading toast and
shows a success toast; on failure dismisses and shows an error toast. -/
def exportDocumentEffects (title documentType : String) (apiOk : Bool) :
    List ExportEffect :=
  if apiOk then
    [ExportEffect.toast (Toast.loading "Preparing document for download..."),
      ExportEffect.download (title ++ "." ++ documentType),
      ExportEffect.toast Toast.dismiss,
      ExportEffect.toast (Toast.success "Document downloaded successfully!")]
  else
    [ExportEffect.toast (Toast.loading "Preparing document for download..."),
      ExportEffect.toast Toast.dismiss,
      ExportEffect.toast (Toast.error "Error downloading document")]

/-- Embeds `handleExport` (Dashboard.js 63–89), which differs from the
editor's handler only in the success toast's wording. -/
def handleExportEffects (title documentType : String) (apiOk : Bool) :
    List ExportEffect :=
  if apiOk then
    [ExportEffect.toast (Toast.loading "Preparing document for download..."),
      ExportEffect.download (title ++ "." ++ documentType),
      ExportEffect.toast Toast.dismiss,
      ExportEffect.toast (Toast.success "Document downloaded successfully")]
  else
    [ExportEffect.toast (Toast.loading "Preparing document for download..."),
      ExportEffect.toast Toast.dismiss,
      ExportEffect.toast (Toast.error "Error downloading document")]

/-! ## Project store and the wizard's AI-outline and create flows -/

/-- Modelled from the spec: the backend project store (§4.2); the FastAPI
backend is absent from the sources.  `nextId` supplies fresh project ids;
creation appends the fresh id, deletion removes an id. -/
structure ProjectStore where
  nextId : Nat
  projects : List Nat
  deriving DecidableEq, Repr

/-- Modelled from the spec: project creation (§4.2) returns the new
project's id and the store now containing it. -/
def storeCreateProject (ps : ProjectStore) : Nat × ProjectStore :=
  (ps.nextId, { nextId := ps.nextId + 1, projects := ps.projects ++ [ps.nextId] })

/-- Modelled from the spec: project deletion (§4.2) removes the project. -/
def storeDeleteProject (ps : ProjectStore) (i : Nat) : ProjectStore :=
  { ps with projects := ps.projects.filter (fun p => p ≠ i) }

/-- Embeds the success path of `generateAIOutline` (NewProject.js 37–65):
creates a temporary project, fetches the outline for it (`outlineOf` is
the generation API's reply), deletes the temporary project again, and
returns the outline as the new wizard structure. -/
def generateAIOutline (ps : ProjectStore)
    (outlineOf : Nat → List SectionItem) : ProjectStore × List SectionItem :=
  let created := storeCreateProject ps
  let outline := outlineOf created.1
  let ps2 := storeDeleteProject created.2 created.1
  (ps2, outline)

/-- A user-observable step of the wizard's `createProject` handler. -/
inductive CreateEffect
  | toastError (msg : String)
  | toastSuccess (msg : String)
  | apiCreateProject
  | navigateToEditor
  deriving DecidableEq, Repr

/-- Embeds `createProject` (NewProject.js 102–125): an empty structure
shows a validation error toast and returns before any API interaction;
otherwise the projects API is called, success navigates to the editor and
failure shows an error toast. -/
def createProjectEffects (structureItems : List SectionItem) (apiOk : Bool) :
    List CreateEffect :=
  if structureItems.length = 0 then
    [CreateEffect.toastError "Please add at least one section/slide"]
  else if apiOk then
    [CreateEffect.apiCreateProject,
      CreateEffect.toastSuccess "Project created successfully!",
      CreateEffect.navigateToEditor]
  else
    [CreateEffect.apiCreateProject,
      CreateEffect.toastError "Error creating project"]

/-! ## Client-side failure handling across all API call sites

Each constructor is one place in the client where a failed API call is
ultimately handled; `onFailure` transcribes that site's catch block. -/

inductive ApiCallSite
  | editorFetchProject
  | editorGenerateContent
  | editorGenerateAllContent
  | editorRefineContent
  | editorAcceptRefinement
  | editorSubmitFeedback
  | editorExportDocument
  | dashboardFetchProjects
  | dashboardHandleDelete
  | dashboardHandleExport
  | wizardGenerateAIOutline
  | wizardCreateProject
  | loginSubmit
  | headerLogoutClick
  | profileLoadProfileData
  | profileFetchUserStats
  | profileFetchUserActivities
  | profileFetchUserPreferences
  | profileSaveProfile
  | profileSavePreferences
  | authContextInitGetCurrentUser
  | authContextLogoutApi
  deriving DecidableEq, Repr

/-- What a failure handler does, observably. -/
inductive FailureEffect
  | toastError (msg : String)
  | toastDismiss
  | alertError (msg : String)
  | consoleLog
  | clearToken
  | redirectLogin
  | navigateDashboard
  | setStateFallback
  deriving DecidableEq, Repr

/-- The terminal failure handling of each client API call site, read off
the catch blocks of ProjectEditor.js, Dashboard.js, NewProject.js,
Login.js, Header.js, Home.js and AuthContext.js. -/
def onFailure : ApiCallSite → List FailureEffect
  | .editorFetchProject =>
      [.toastError "Error loading project", .navigateDashboard]
  | .editorGenerateContent =>
      [.toastError "Error generating content", .consoleLog]
  | .editorGenerateAllContent =>
      [.toastDismiss, .toastError "Error generating all content", .consoleLog]
  | .editorRefineContent =>
      [.toastError "Error refining content", .consoleLog]
  | .editorAcceptRefinement =>
      [.toastError "Error accepting refinement"]
  | .editorSubmitFeedback =>
      [.toastError "Error submitting feedback"]
  | .editorExportDocument =>
      [.toastDismiss, .toastError "Error downloading document", .consoleLog]
  | .dashboardFetchProjects =>
      [.toastError "Error fetching projects", .consoleLog]
  | .dashboardHandleDelete =>
      [.toastError "Error deleting project"]
  | .dashboardHandleExport =>
      [.toastDismiss, .toastError "Error downloading document", .consoleLog]
  | .wizardGenerateAIOutline =>
      [.toastError "Error generating AI outline", .consoleLog]
  | .wizardCreateProject =>
      [.toastError "Error creating project", .consoleLog]
  | .loginSubmit =>
      [.toastError "An error occurred during login"]
  | .headerLogoutClick =>
      [.toastError "Error logging out"]
  | .profileLoadProfileData =>
      [.consoleLog, .setStateFallback]
  | .profileFetchUserStats =>
      [.consoleLog]
  | .profileFetchUserActivities =>
      [.consoleLog]
  | .profileFetchUserPreferences =>
      [.consoleLog]
  | .profileSaveProfile =>
      [.consoleLog, .alertError "Error saving profile. Please try again."]
  | .profileSavePreferences =>
      [.consoleLog, .alertError "Error saving preferences. Please try again."]
  | .authContextInitGetCurrentUser =>
      [.consoleLog, .clearToken]
  | .authContextLogoutApi =>
      [.consoleLog]

/-- Embeds the response interceptor (services/api.js 114–124): a 401
response clears the stored token and user and redirects to the login
page, then passes the rejection on; it shows no notification itself. -/
def interceptorOn401 : List FailureEffect :=
  [FailureEffect.clearToken, FailureEffect.redirectLogin]

def FailureEffect.isToastError : FailureEffect → Bool
  | .toastError _ => true
  | _ => false

def FailureEffect.isUserVisible : FailureEffect → Bool
  | .toastError _ => true
  | .alertError _ => true
  | _ => false

/-- Whether the site's failure handling shows a transient toast. -/
def surfacesTransientNotification (s : ApiCallSite) : Bool :=
  (onFailure s).any FailureEffect.isToastError

/-- Whether the site's failure handling shows anything to the user at
all (toast or blocking alert). -/
def surfacesUserVisibleFailure (s : ApiCallSite) : Bool :=
  (onFailure s).any FailureEffect.isUserVisible

/-- The sites whose failures are handled with no user-visible output:
the profile page's data loads, the session-restore `getCurrentUser`
call, and the logout API call (whose inner catch also keeps Header.js
from ever showing its error toast). -/
def isSilentSite : ApiCallSite → Bool
  | .profileLoadProfileData => true
  | .profileFetchUserStats => true
  | .profileFetchUserActivities => true
  | .profileFetchUserPreferences => true
  | .authContextInitGetCurrentUser => true
  | .authContextLogoutApi => true
  | _ => false

theorem map_order_reindexOrders (xs : List SectionItem) :
    ∀ n, (reindexOrders n xs).map (fun item => item.order) =
      List.range' (n + 1) xs.length := by
  induction xs with
  | nil => intro n; simp [reindexOrders]
  | cons x xs ih =>
      intro n
      simp [reindexOrders, ih, List.range'_succ]

theorem length_reindexOrders (xs : List SectionItem) :
    ∀ n, (reindexOrders n xs).length = xs.length := by
  induction xs with
  | nil => intro n; simp [reindexOrders]
  | cons x xs ih => intro n; simp [reindexOrders, ih]

theorem ordersContiguous_reindexOrders (xs : List SectionItem) :
    ordersContiguous (reindexOrders 0 xs) := by
  unfold ordersContiguous
  rw [map_order_reindexOrders, length_reindexOrders]

theorem ordersContiguous_addSection (s : List SectionItem) (newId : Nat)
    (h : ordersContiguous s) : ordersContiguous (addSection s newId) := by
  unfold ordersContiguous at h ⊢
  simp [addSection, h, List.range'_concat, Nat.add_comm]

theorem ordersContiguous_moveSection (s : List SectionItem) (index : Nat)
    (dir : MoveDir) (h : ordersContiguous s) :
    ordersContiguous (moveSection s index dir) := by
  unfold moveSection
  cases dir <;> dsimp only <;> split
  · exact ordersContiguous_reindexOrders _
  · exact h
  · exact ordersContiguous_reindexOrders _
  · exact h

theorem ordersContiguous_applyWizardOps_aux (ops : List WizardOp) :
    ∀ s, (∀ op ∈ ops, op.isRemove = false) → ordersContiguous s →
      ordersContiguous (ops.foldl applyWizardOp s) := by
  induction ops with
  | nil => intro s _ hs; exact hs
  | cons op ops ih =>
      intro s hops hs
      simp only [List.foldl_cons]
      refine ih _ (fun o ho => hops o (List.mem_cons_of_mem op ho)) ?_
      cases op with
      | add newId => exact ordersContiguous_addSection s newId hs
      | move index dir => exact ordersContiguous_moveSection s index dir hs
      | remove i =>
          exact absurd (hops _ (List.mem_cons_self _ _)) (by simp [WizardOp.isRemove])

/-- C1 counterexample: the claim as stated is false.  Adding two sections
and then removing the first leaves the single remaining item with order 2,
because `removeSection` only filters and never renumbers the survivors'
`order` fields. -/
theorem c1_counterexample :
    ¬ ordersContiguous
        (applyWizardOps [WizardOp.add 1, WizardOp.add 2, WizardOp.remove 1]) := by
  decide

/-- C1 (amended): for every sequence of insertions (`addSection`) and
reorderings (`moveSection`) — i.e. any edit sequence without removals —
the wizard structure's order indices form the contiguous sequence 1..N.
A `removeSection` can leave a gap, as the counterexample shows. -/
theorem c1_contiguous_without_removals (ops : List WizardOp)
    (h : ∀ op ∈ ops, op.isRemove = false) :
    ordersContiguous (applyWizardOps ops) :=
  ordersContiguous_applyWizardOps_aux ops [] h (by decide)

/-- C1 witness: a concrete removal-free edit sequence keeps orders 1..N. -/
theorem c1_witness :
    (∀ op ∈ [WizardOp.add 5, WizardOp.add 9, WizardOp.move 0 MoveDir.down],
        op.isRemove = false) ∧
      ordersContiguous
        (applyWizardOps [WizardOp.add 5, WizardOp.add 9, WizardOp.move 0 MoveDir.down]) :=
  ⟨by decide, c1_contiguous_without_removals _ (by decide)⟩

theorem setKey_same {α : Type} (m : Nat → Option α) (k : Nat) (v : Option α) :
    setKey m k v k = v := by
  simp [setKey]

theorem setKey_eq_self {α : Type} (m : Nat → Option α) (k : Nat) (v : Option α)
    (h : m k = v) : setKey m k v = m := by
  funext k2
  unfold setKey
  split
  · rename_i hk; rw [hk, h]
  · rfl

theorem itemContent_setContentFirst (i : Nat) (c : Content) :
    ∀ items : List ContentItem, items.any (fun it => it.id = i) = true →
      itemContent (setContentFirst items i c) i = some c := by
  intro items
  induction items with
  | nil => intro h; simp at h
  | cons it rest ih =>
      intro h
      by_cases hid : it.id = i
      · simp [setContentFirst, hid, itemContent, List.find?]
      · have h2 : rest.any (fun it => it.id = i) = true := by
          simp [List.any_cons, hid] at h
          simpa [List.any_eq_true] using h
        simp only [setContentFirst, if_neg hid]
        have := ih h2
        simpa [itemContent, List.find?, hid] using this

theorem any_id_of_itemContent (items : List ContentItem) (i : Nat) (c0 : Content)
    (h : itemContent items i = some c0) :
    items.any (fun it => it.id = i) = true := by
  unfold itemContent at h
  cases hf : items.find? (fun it => it.id = i) with
  | none => rw [hf] at h; simp at h
  | some it =>
      have hmem := List.mem_of_find?_eq_some hf
      have hpred := List.find?_some hf
      exact List.any_eq_true.mpr ⟨it, hmem, hpred⟩

/-- A successful refine call (non-blank prompt, item with content, AI
reply `c`) stores the result both as the backend's pending result and in
the client's `refinementResults`, and clears the prompt. -/
theorem refineContent_success (st : EditorState) (i : Nat) (p : String)
    (c c0 : Content) (hp : jsTrim p ≠ "")
    (hc0 : itemContent st.serverItems i = some c0) :
    refineContent (setPrompt st i p) i (some c) =
      ({ st with
          serverPending := setKey st.serverPending i (some { refined_content := c }),
          refinementResults := setKey st.refinementResults i (some { refined_content := c }),
          refinementPrompts :=
            setKey (setKey st.refinementPrompts i (some p)) i (some "") },
        [Toast.success "Content refined successfully!"]) := by
  unfold refineContent setPrompt backendRefine
  simp [setKey_same, hp, hc0]

/-- A successful accept (pending result on both sides, item present in the
client copy) copies the proposed content into the item on both sides and
clears the pending result on both sides. -/
theorem acceptRefinement_success (st : EditorState) (i : Nat)
    (r : RefinementResult) (hsp : st.serverPending i = some r)
    (hci : st.items.any (fun it => it.id = i) = true)
    (hcr : st.refinementResults i = some r) :
    acceptRefinement st i =
      ({ st with
          serverItems := setContentFirst st.serverItems i r.refined_content,
          serverPending := setKey st.serverPending i none,
          items := setContentFirst st.items i r.refined_content,
          refinementResults := setKey st.refinementResults i none },
        [Toast.success "Refinement accepted!"]) := by
  unfold acceptRefinement backendAccept
  simp [hsp, hci, hcr]

/-- C2: two sequential refine calls on the same item before any accept
are last-write-wins — after the second call the pending result is the
second call's result, and a subsequent accept materializes the second
call's proposed content into the item (both in the client copy and in the
backend's items). -/
theorem c2_refine_last_write_wins (st : EditorState) (i : Nat)
    (p1 p2 : String) (c0 c1 c2 : Content)
    (hc0 : itemContent st.serverItems i = some c0)
    (hci : st.items.any (fun it => it.id = i) = true)
    (hp1 : jsTrim p1 ≠ "") (hp2 : jsTrim p2 ≠ "") :
    ((refineContent (setPrompt (refineContent (setPrompt st i p1) i (some c1)).1
          i p2) i (some c2)).1.refinementResults i =
        some { refined_content := c2 }) ∧
      itemContent ((acceptRefinement
          (refineContent (setPrompt (refineContent (setPrompt st i p1) i (some c1)).1
            i p2) i (some c2)).1 i).1.items) i = some c2 ∧
      itemContent ((acceptRefinement
          (refineContent (setPrompt (refineContent (setPrompt st i p1) i (some c1)).1
            i p2) i (some c2)).1 i).1.serverItems) i = some c2 := by
  rw [refineContent_success st i p1 c1 c0 hp1 hc0]
  set st1 : EditorState :=
    { st with
        serverPending := setKey st.serverPending i (some { refined_content := c1 }),
        refinementResults := setKey st.refinementResults i (some { refined_content := c1 }),
        refinementPrompts := setKey (setKey st.refinementPrompts i (some p1)) i (some "") }
    with hst1
  have hc0b : itemContent st1.serverItems i = some c0 := hc0
  rw [refineContent_success st1 i p2 c2 c0 hp2 hc0b]
  set st2 : EditorState :=
    { st1 with
        serverPending := setKey st1.serverPending i (some { refined_content := c2 }),
        refinementResults := setKey st1.refinementResults i (some { refined_content := c2 }),
        refinementPrompts := setKey (setKey st1.refinementPrompts i (some p2)) i (some "") }
    with hst2
  have hsp2 : st2.serverPending i = some { refined_content := c2 } := setKey_same ..
  have hcr2 : st2.refinementResults i = some { refined_content := c2 } := setKey_same ..
  have hci2 : st2.items.any (fun it => it.id = i) = true := hci
  rw [acceptRefinement_success st2 i { refined_content := c2 } hsp2 hci2 hcr2]
  refine ⟨hcr2, ?_, ?_⟩
  · exact itemContent_setContentFirst i c2 st2.items hci2
  · exact itemContent_setContentFirst i c2 st2.serverItems
      (any_id_of_itemContent st2.serverItems i c0 hc0b)

/-- C2 witness: the last-write-wins property at a concrete state, item,
prompts and AI replies. -/
theorem c2_witness :
    itemContent sampleState.serverItems 1 = some (Content.text "orig") ∧
      sampleState.items.any (fun it => it.id = 1) = true ∧
      jsTrim "make it formal" ≠ "" ∧ jsTrim "make it shorter" ≠ "" ∧
      (((refineContent (setPrompt (refineContent (setPrompt sampleState 1 "make it formal") 1
            (some (Content.text "v1"))).1 1 "make it shorter") 1
            (some (Content.text "v2"))).1.refinementResults 1 =
          some { refined_content := Content.text "v2" }) ∧
        itemContent ((acceptRefinement
            (refineContent (setPrompt (refineContent (setPrompt sampleState 1 "make it formal") 1
              (some (Content.text "v1"))).1 1 "make it shorter") 1
              (some (Content.text "v2"))).1 1).1.items) 1 = some (Content.text "v2") ∧
        itemContent ((acceptRefinement
            (refineContent (setPrompt (refineContent (setPrompt sampleState 1 "make it formal") 1
              (some (Content.text "v1"))).1 1 "make it shorter") 1
              (some (Content.text "v2"))).1 1).1.serverItems) 1 = some (Content.text "v2")) :=
  ⟨by decide, by decide, by decide, by decide,
    c2_refine_last_write_wins sampleState 1 "make it formal" "make it shorter"
      (Content.text "orig") (Content.text "v1") (Content.text "v2")
      (by decide) (by decide) (by decide) (by decide)⟩

/-- C3: accept on an item with no pending refinement result fails with
`NoPendingRefinement` (backend modelled from the spec), and the client's
accept handler catches the failure with an error toast and leaves the
entire state — in particular the item's stable content — unchanged. -/
theorem c3_accept_without_pending (st : EditorState) (i : Nat)
    (h : st.serverPending i = none) :
    backendAccept st.serverItems st.serverPending i =
        Except.error RefError.NoPendingRefinement ∧
      acceptRefinement st i = (st, [Toast.error "Error accepting refinement"]) := by
  constructor
  · unfold backendAccept; rw [h]
  · unfold acceptRefinement backendAccept; rw [h]

/-- C3 witness: accept with nothing pending at a concrete state. -/
theorem c3_witness :
    sampleState.serverPending 1 = none ∧
      (backendAccept sampleState.serverItems sampleState.serverPending 1 =
          Except.error RefError.NoPendingRefinement ∧
        acceptRefinement sampleState 1 =
          (sampleState, [Toast.error "Error accepting refinement"])) :=
  ⟨rfl, c3_accept_without_pending sampleState 1 rfl⟩

/-- C4: reject is total and idempotent — both of two consecutive reject
calls succeed (success toast each time), the stable content (client and
backend items) is unchanged, the second call leaves the state of the
first, and rejecting with nothing pending is a complete no-op. -/
theorem c4_reject_idempotent_total (st : EditorState) (i : Nat) :
    (rejectRefinement st i).2 = [Toast.success "Refinement rejected"] ∧
      (rejectRefinement (rejectRefinement st i).1 i).2 =
        [Toast.success "Refinement rejected"] ∧
      (rejectRefinement (rejectRefinement st i).1 i).1.items = st.items ∧
      (rejectRefinement (rejectRefinement st i).1 i).1.serverItems = st.serverItems ∧
      (rejectRefinement (rejectRefinement st i).1 i).1 = (rejectRefinement st i).1 ∧
      (st.refinementResults i = none → (rejectRefinement st i).1 = st) := by
  refine ⟨rfl, rfl, rfl, rfl, ?_, ?_⟩
  · have h2 : setKey (setKey st.refinementResults i none) i none =
        setKey st.refinementResults i none :=
      setKey_eq_self _ _ _ (setKey_same ..)
    simp only [rejectRefinement, h2]
  · intro h
    have h2 : setKey st.refinementResults i none = st.refinementResults :=
      setKey_eq_self _ _ _ h
    simp only [rejectRefinement, h2]

/-- C4 witness: double reject at a concrete state with nothing pending. -/
theorem c4_witness :
    sampleState.refinementResults 1 = none ∧
      ((rejectRefinement sampleState 1).2 = [Toast.success "Refinement rejected"] ∧
        (rejectRefinement (rejectRefinement sampleState 1).1 1).2 =
          [Toast.success "Refinement rejected"] ∧
        (rejectRefinement (rejectRefinement sampleState 1).1 1).1.items =
          sampleState.items ∧
        (rejectRefinement (rejectRefinement sampleState 1).1 1).1.serverItems =
          sampleState.serverItems ∧
        (rejectRefinement (rejectRefinement sampleState 1).1 1).1 =
          (rejectRefinement sampleState 1).1 ∧
        (sampleState.refinementResults 1 = none →
          (rejectRefinement sampleState 1).1 = sampleState)) :=
  ⟨rfl, c4_reject_idempotent_total sampleState 1⟩

/-- C8: submitting feedback (any liked value, any comment) only appends a
Feedback record — the items' content (client and backend), the pending
refinement results on both sides, and hence the refinement state machine,
are unchanged; and a failed feedback call changes nothing at all. -/
theorem c8_feedback_frame (st : EditorState) (i : Nat) (liked : Option Bool) :
    (submitFeedback st i liked true).1.feedbacks =
        st.feedbacks ++
          [{ itemId := i, liked := liked, comment := (st.comments i).getD "" }] ∧
      (submitFeedback st i liked true).1.items = st.items ∧
      (submitFeedback st i liked true).1.serverItems = st.serverItems ∧
      (submitFeedback st i liked true).1.refinementResults = st.refinementResults ∧
      (submitFeedback st i liked true).1.serverPending = st.serverPending ∧
      (submitFeedback st i liked false).1 = st :=
  ⟨rfl, rfl, rfl, rfl, rfl, rfl⟩

theorem length_exportDoc (items : List ContentItem)
    (h : ∀ it ∈ items, it.content ≠ none) :
    (items.filterMap (fun it => it.content.map (fun c => (it.title, c)))).length =
      items.length := by
  induction items with
  | nil => simp
  | cons it rest ih =>
      have h1 := h it (List.mem_cons_self _ _)
      cases hc : it.content with
      | none => exact absurd hc h1
      | some c =>
          simp [hc, ih (fun x hx => h x (List.mem_cons_of_mem _ hx))]

/-- C5: export fails with `ExportFailed` iff at least one content item has
no generated content, and on a fully populated project it succeeds with a
document containing one entry per content item (all-or-nothing, never
partial; backend adapter modelled from the spec). -/
theorem c5_export_all_or_nothing (items : List ContentItem) :
    (exportProject items = Except.error ExportError.ExportFailed ↔
        ∃ it ∈ items, it.content = none) ∧
      ((∀ it ∈ items, it.content ≠ none) →
        ∃ doc, exportProject items = Except.ok doc ∧ doc.length = items.length) := by
  have hiff : items.any (fun it => it.content.isNone) = true ↔
      ∃ it ∈ items, it.content = none := by
    simp [List.any_eq_true, Option.isNone_iff_eq_none]
  constructor
  · constructor
    · intro he
      unfold exportProject at he
      by_cases hany : items.any (fun it => it.content.isNone) = true
      · exact hiff.mp hany
      · rw [if_neg hany] at he; exact absurd he (by simp)
    · intro hex
      unfold exportProject
      rw [if_pos (hiff.mpr hex)]
  · intro hall
    unfold exportProject
    rw [if_neg (fun hany => by
      obtain ⟨it, hit, hnone⟩ := hiff.mp hany
      exact hall it hit hnone)]
    exact ⟨_, rfl, length_exportDoc items hall⟩

/-- C5 witness: a fully populated item list exports successfully. -/
theorem c5_witness :
    (∀ it ∈ sampleState.serverItems, it.content ≠ none) ∧
      ∃ doc, exportProject sampleState.serverItems = Except.ok doc ∧
        doc.length = sampleState.serverItems.length :=
  ⟨by decide, (c5_export_all_or_nothing sampleState.serverItems).2 (by decide)⟩

/-- C7: on every successful export, both download handlers (project
editor and dashboard) download under exactly the name
`title ++ "." ++ document_type`, and such a download does occur. -/
theorem c7_export_filename (title documentType : String) :
    (∀ f, ExportEffect.download f ∈ exportDocumentEffects title documentType true →
        f = title ++ "." ++ documentType) ∧
      ExportEffect.download (title ++ "." ++ documentType) ∈
        exportDocumentEffects title documentType true ∧
      (∀ f, ExportEffect.download f ∈ handleExportEffects title documentType true →
        f = title ++ "." ++ documentType) ∧
      ExportEffect.download (title ++ "." ++ documentType) ∈
        handleExportEffects title documentType true := by
  refine ⟨?_, ?_, ?_, ?_⟩ <;>
    simp [exportDocumentEffects, handleExportEffects]

/-- C7 witness: the export filename at a concrete project. -/
theorem c7_witness :
    (∀ f, ExportEffect.download f ∈ exportDocumentEffects "Q1 Report" "docx" true →
        f = "Q1 Report" ++ "." ++ "docx") ∧
      ExportEffect.download ("Q1 Report" ++ "." ++ "docx") ∈
        exportDocumentEffects "Q1 Report" "docx" true ∧
      (∀ f, ExportEffect.download f ∈ handleExportEffects "Q1 Report" "docx" true →
        f = "Q1 Report" ++ "." ++ "docx") ∧
      ExportEffect.download ("Q1 Report" ++ "." ++ "docx") ∈
        handleExportEffects "Q1 Report" "docx" true :=
  c7_export_filename "Q1 Report" "docx"

/-- C9: the success path of the wizard's AI-outline request leaves the
set of persisted projects unchanged — the temporary project it creates is
deleted before the operation completes (store modelled from the spec;
`hfresh` states that the store hands out genuinely fresh ids). -/
theorem c9_outline_leaves_projects_unchanged (ps : ProjectStore)
    (outlineOf : Nat → List SectionItem)
    (hfresh : ∀ p ∈ ps.projects, p < ps.nextId) :
    (generateAIOutline ps outlineOf).1.projects = ps.projects := by
  unfold generateAIOutline storeCreateProject storeDeleteProject
  simp only []
  rw [List.filter_append]
  have h1 : ps.projects.filter (fun p => p ≠ ps.nextId) = ps.projects :=
    List.filter_eq_self.mpr
      (fun a ha => by simpa using Nat.ne_of_lt (hfresh a ha))
  have h2 : ([ps.nextId] : List Nat).filter (fun p => p ≠ ps.nextId) = [] := by
    simp
  rw [h1, h2, List.append_nil]

/-- C9 witness: the AI-outline flow at a concrete store. -/
theorem c9_witness :
    (∀ p ∈ ({ nextId := 7, projects := [3, 5] } : ProjectStore).projects, p < 7) ∧
      (generateAIOutline { nextId := 7, projects := [3, 5] }
        (fun _ => [])).1.projects = [3, 5] :=
  ⟨by decide,
    c9_outline_leaves_projects_unchanged { nextId := 7, projects := [3, 5] }
      (fun _ => []) (by decide)⟩

/-- C10: the wizard's createProject with an empty structure shows only
the validation error toast and never reaches the projects API. -/
theorem c10_no_create_on_empty_structure (s : List SectionItem) (apiOk : Bool)
    (h : s.length = 0) :
    createProjectEffects s apiOk =
        [CreateEffect.toastError "Please add at least one section/slide"] ∧
      CreateEffect.apiCreateProject ∉ createProjectEffects s apiOk := by
  unfold createProjectEffects
  rw [if_pos h]
  exact ⟨rfl, by simp⟩

/-- C10 witness: the empty structure on the concrete empty list. -/
theorem c10_witness :
    ([] : List SectionItem).length = 0 ∧
      (createProjectEffects [] true =
          [CreateEffect.toastError "Please add at least one section/slide"] ∧
        CreateEffect.apiCreateProject ∉ createProjectEffects [] true) :=
  ⟨rfl, c10_no_create_on_empty_structure [] true rfl⟩

/-- C6 counterexample: the profile page's stats fetch fails with no
transient notification — indeed with no user-visible output at all — so
not every failed API call is surfaced; and the 401 interceptor itself
shows no toast either (it only clears the token and redirects). -/
theorem c6_counterexample :
    surfacesTransientNotification ApiCallSite.profileFetchUserStats = false ∧
      (onFailure ApiCallSite.profileFetchUserStats).all
        (fun e => e.isUserVisible = false) = true ∧
      interceptorOn401.any FailureEffect.isToastError = false := by
  refine ⟨by decide, ?_, by decide⟩
  decide

/-- C6 (amended): every failed API call outside the silent sites (the
profile page's data loads, session-restore `getCurrentUser`, and the
logout API call) surfaces a user-visible failure — a toast, or a blocking
alert for the profile save operations — while the silent sites produce no
user-visible output on failure. -/
theorem c6_silent_sites_amended (s : ApiCallSite) :
    (isSilentSite s = false → surfacesUserVisibleFailure s = true) ∧
      (isSilentSite s = true →
        (onFailure s).any FailureEffect.isUserVisible = false) := by
  cases s <;>
    exact ⟨fun h => by first | decide | exact absurd h (by decide),
      fun h => by first | decide | exact absurd h (by decide)⟩

/-- C6 witness: a non-silent site that does surface its failure. -/
theorem c6_witness :
    isSilentSite ApiCallSite.editorFetchProject = false ∧
      surfacesUserVisibleFailure ApiCallSite.editorFetchProject = true :=
  ⟨by decide, (c6_silent_sites_amended ApiCallSite.editorFetchProject).1 (by decide)⟩

end DocAuth
